import Mathlib

/-!
Verification development for the refine data-mutation hooks slice:
the update-mutation orchestration (optimistic, undoable and pessimistic
modes), the invalidation hook and the audit-log hook.

The `useInvalidate` hook and the `useLog` hook are translated directly from
the TypeScript sources.  The `useUpdate` orchestrator and the small helpers
it relies on (query-key builder, resource resolver, data-provider picker,
permission check) are not part of the source slice, so they are modelled
from the specification; each such definition carries a doc comment starting
with "Modelled from the spec".
-/

namespace Refine

/-- JSON-like scalar values used for record fields, meta entries and ids. -/
inductive JsonVal
  | str (s : String)
  | num (n : Int)
  | boolean (b : Bool)
  | null
deriving DecidableEq, Repr

/-- A JSON-like object: an ordered association list from field names to
values, which is how record payloads and meta objects travel through the
hooks. -/
abbrev Obj := List (String × JsonVal)

/-- First-occurrence field lookup in an object, as JavaScript property
access behaves on the objects built here. -/
def lookupField : Obj → String → Option JsonVal
  | [], _ => none
  | (k, v) :: rest, q => if k = q then some v else lookupField rest q

/-- JavaScript object spread `\x7b...base, ...patch\x7d`: keys of `base` keep
their position but take the value from `patch` when present, and keys
only in `patch` are appended in order. -/
def mergeObj (base patch : Obj) : Obj :=
  (base.map (fun kv =>
    match lookupField patch kv.1 with
    | some v => (kv.1, v)
    | none => kv)) ++
  patch.filter (fun kv => (lookupField base kv.1).isNone)

/-- The transport-specific meta fields that are stripped before meta is
handed to query-key construction and invalidation. -/
def isGqlField (k : String) : Bool :=
  k = "gqlQuery" || k = "gqlMutation"

/-- Remove the transport-specific fields from a meta object. -/
def stripGql (m : Obj) : Obj :=
  m.filter (fun kv => !(isGqlField kv.1))

theorem lookupField_append (a b : Obj) (k : String) :
    lookupField (a ++ b) k =
      match lookupField a k with
      | some v => some v
      | none => lookupField b k := by
  induction a with
  | nil => rfl
  | cons hd tl ih =>
    obtain ⟨k1, v1⟩ := hd
    by_cases hk : k1 = k
    · simp [lookupField, hk]
    · simp [lookupField, hk, ih]

theorem lookupField_filter_true (p : String × JsonVal → Bool) (m : Obj) (k : String)
    (hp : ∀ v, p (k, v) = true) :
    lookupField (m.filter p) k = lookupField m k := by
  induction m with
  | nil => rfl
  | cons hd tl ih =>
    obtain ⟨k1, v1⟩ := hd
    by_cases hk : k1 = k
    · subst hk
      simp [List.filter, hp v1, lookupField, ih]
    · by_cases hkeep : p (k1, v1)
      · simp [List.filter, hkeep, lookupField, hk, ih]
      · simp [List.filter, hkeep, lookupField, hk, ih]

theorem lookupField_filter_false (p : String × JsonVal → Bool) (m : Obj) (k : String)
    (hp : ∀ v, p (k, v) = false) :
    lookupField (m.filter p) k = none := by
  induction m with
  | nil => rfl
  | cons hd tl ih =>
    obtain ⟨k1, v1⟩ := hd
    by_cases hk : k1 = k
    · subst hk
      simp [List.filter, hp v1, ih]
    · by_cases hkeep : p (k1, v1)
      · simp [List.filter, hkeep, lookupField, hk, ih]
      · simp [List.filter, hkeep, lookupField, hk, ih]

theorem lookupField_map_override (a patch : Obj) (k : String) :
    lookupField
      (a.map (fun kv =>
        match lookupField patch kv.1 with
        | some v => (kv.1, v)
        | none => kv)) k =
      match lookupField a k with
      | some v =>
        some (match lookupField patch k with
          | some w => w
          | none => v)
      | none => none := by
  induction a with
  | nil => rfl
  | cons hd tl ih =>
    obtain ⟨k1, v1⟩ := hd
    by_cases hk : k1 = k
    · subst hk
      cases hpatch : lookupField patch k1 <;> simp [lookupField, hpatch]
    · cases hpatch : lookupField patch k1 <;>
        simp [lookupField, hpatch, hk, ih]

/-- Lookup into a spread-merge: the patch value wins, otherwise the base
value survives. -/
theorem lookupField_mergeObj (base patch : Obj) (k : String) :
    lookupField (mergeObj base patch) k =
      match lookupField patch k with
      | some v => some v
      | none => lookupField base k := by
  unfold mergeObj
  rw [lookupField_append, lookupField_map_override]
  cases hbase : lookupField base k with
  | some v =>
    cases hpatch : lookupField patch k <;> simp [hpatch]
  | none =>
    cases hpatch : lookupField patch k with
    | some v =>
      rw [lookupField_filter_true]
      · simp [hpatch]
      · intro w; simp [hbase]
    | none =>
      rw [lookupField_filter_true]
      · simp [hpatch]
      · intro w; simp [hbase]

theorem lookupField_stripGql_of_gql (m : Obj) (k : String) (hk : isGqlField k = true) :
    lookupField (stripGql m) k = none := by
  unfold stripGql
  apply lookupField_filter_false
  intro v; simp [hk]

theorem lookupField_stripGql_of_not_gql (m : Obj) (k : String) (hk : isGqlField k = false) :
    lookupField (stripGql m) k = lookupField m k := by
  unfold stripGql
  apply lookupField_filter_true
  intro v; simp [hk]

/-! ## Resources, query keys and resolution helpers -/

/-- A resource definition, as configured by the application.  The audit
fields mirror the three places the audit permissions may live
(`meta.audit`, the deprecated `options.audit` and the deprecated
`options.auditLog.permissions`). -/
structure Resource where
  name : String
  identifier : Option String := none
  meta : Obj := []
  dataProviderName : Option String := none
  metaAudit : Option (List String) := none
  optionsAudit : Option (List String) := none
  optionsAuditLogPermissions : Option (List String) := none
deriving DecidableEq, Repr

/-- A hierarchical cache query key: an ordered list of segments. -/
abbrev QueryKey := List String

/-- Modelled from the spec: the query-key builder produces an ordered,
hierarchical tuple `[dataProviderScope, resourceScope, action, id?]`;
the builder methods append segments in order. -/
structure KeyBuilder where
  segments : List String
deriving DecidableEq, Repr

/-- The empty key builder, the root of every `keys()` chain. -/
def keysRoot : KeyBuilder := ⟨[]⟩

/-- Enter the data scope of a given data provider. -/
def KeyBuilder.data (b : KeyBuilder) (dp : String) : KeyBuilder :=
  ⟨b.segments ++ ["data", dp]⟩

/-- Enter the audit scope. -/
def KeyBuilder.audit (b : KeyBuilder) : KeyBuilder :=
  ⟨b.segments ++ ["audit"]⟩

/-- Append the resource segment. -/
def KeyBuilder.resource (b : KeyBuilder) (r : String) : KeyBuilder :=
  ⟨b.segments ++ [r]⟩

/-- Append the action segment. -/
def KeyBuilder.action (b : KeyBuilder) (a : String) : KeyBuilder :=
  ⟨b.segments ++ [a]⟩

/-- Append the id segment. -/
def KeyBuilder.id (b : KeyBuilder) (i : String) : KeyBuilder :=
  ⟨b.segments ++ [i]⟩

/-- Materialise the key. -/
def KeyBuilder.get (b : KeyBuilder) : QueryKey := b.segments

/-- Modelled from the spec: the resource resolver `pickResource` is not in
the source slice; per the spec the matching order is exact `identifier`
match first, else the first resource whose `name` equals the argument. -/
def pickResource (arg : String) (resources : List Resource) : Option Resource :=
  match resources.find? (fun r => r.identifier == some arg) with
  | some r => some r
  | none => resources.find? (fun r => r.name == arg)

/-- Modelled from the spec: `pickDataProvider` is not in the source slice;
an explicitly requested data-provider name wins, else the resolved
resource contributes its configured data-provider name, else the
default provider is used. -/
def pickDataProvider (resourceName : Option String)
    (dataProviderName : Option String) (resources : List Resource) : String :=
  match dataProviderName with
  | some dp => dp
  | none =>
    match resourceName.bind (fun n => pickResource n resources) with
    | some r => r.dataProviderName.getD "default"
    | none => "default"

/-- JavaScript falsiness of a scalar value, used to model `id || ""`. -/
def jsFalsy : JsonVal → Bool
  | .str s => s == ""
  | .num n => n == 0
  | .boolean b => !b
  | .null => true

/-- The string segment a scalar contributes to a query key. -/
def segOf : JsonVal → String
  | .str s => s
  | .num n => toString n
  | .boolean b => if b then "true" else "false"
  | .null => "null"

/-- The id segment computed by `id || ""`: an absent or falsy id collapses
to the empty string. -/
def idOrEmpty (id : Option JsonVal) : String :=
  match id with
  | none => ""
  | some v => if jsFalsy v then "" else segOf v

/-! ## The invalidation hook (translated from
`packages/core/src/hooks/invalidate/index.tsx`) -/

/-- The invalidation scopes of the `invalidates` array; `other` stands for
any further `IQueryKeys` key, which the switch statement sends to its
`default` branch. -/
inductive InvalidateScope
  | all
  | list
  | many
  | resourceAll
  | detail
  | other
deriving DecidableEq, Repr

/-- The `invalidates` argument: either the literal `false` or an array of
scopes. -/
inductive InvalidatesArg
  | off
  | scopes (l : List InvalidateScope)
deriving DecidableEq, Repr

/-- The argument record of the invalidation call. -/
structure InvalidateProps where
  resource : Option String := none
  id : Option JsonVal := none
  dataProviderName : Option String := none
  invalidates : InvalidatesArg
deriving DecidableEq, Repr

/-- The invalidation hook, translated from the source: `invalidates ===
false` returns immediately; otherwise each scope in the array is mapped
to the query key it invalidates (the `default` branch of the switch
produces no invalidation).  The result lists the query keys handed to
the cache invalidation calls, in order. -/
def useInvalidateCalls (resources : List Resource) (p : InvalidateProps) :
    List QueryKey :=
  match p.invalidates with
  | .off => []
  | .scopes l =>
    let dp := pickDataProvider p.resource p.dataProviderName resources
    let queryKey := (keysRoot.data dp).resource (p.resource.getD "")
    l.filterMap (fun k =>
      match k with
      | .all => some (keysRoot.data dp).get
      | .list => some ((queryKey.action "list").get)
      | .many => some ((queryKey.action "many").get)
      | .resourceAll => some queryKey.get
      | .detail => some (((queryKey.action "one").id (idOrEmpty p.id)).get)
      | .other => none)

/-! ## The audit-log hook (translated from the `useLog` source) -/

/-- Modelled from the spec: `pickNotDeprecated` is not in the source slice;
it returns the first defined value among its arguments, preferring the
non-deprecated one. -/
def pickNotDeprecated3 (a b c : Option (List String)) : Option (List String) :=
  match a with
  | some x => some x
  | none =>
    match b with
    | some x => some x
    | none => c

/-- Modelled from the spec: `hasPermission` is not in the source slice; it
holds exactly when the requested action is among the configured audit
permissions. -/
def hasPermission (permissions : List String) (action : String) : Bool :=
  permissions.contains action

/-- The argument record of a `log` mutation. -/
structure LogParams where
  resource : String
  action : String
  data : Obj := []
deriving DecidableEq, Repr

/-- A call made to the audit-log context `create` function: the log
parameters plus the resolved author identity. -/
structure LogCall where
  params : LogParams
  author : Option Obj
deriving DecidableEq, Repr

/-- The `log` mutation function of `useLog`, translated from the source:
resolve the resource, read the audit permissions from the resolved
resource (preferring `meta.audit` over the deprecated fields); when
permissions are configured and the requested action is not permitted,
return without calling `create`; otherwise call `create` (when the
audit-log context provides it) with the parameters and the author.
`none` means the mutation resolves with no value and `create` was never
invoked; `some c` means `create` was invoked with the arguments `c`. -/
def logMutationFn (resources : List Resource) (hasCreate : Bool)
    (identity : Option Obj) (params : LogParams) : Option LogCall :=
  let resource := pickResource params.resource resources
  let logPermissions := pickNotDeprecated3
    (resource.bind Resource.metaAudit)
    (resource.bind Resource.optionsAudit)
    (resource.bind Resource.optionsAuditLogPermissions)
  match logPermissions with
  | some ps =>
    if hasPermission ps params.action then
      if hasCreate then some ⟨params, identity⟩ else none
    else none
  | none => if hasCreate then some ⟨params, identity⟩ else none

/-- The result value of a `rename` mutation: possibly `undefined`, and its
`resource` field possibly absent. -/
structure RenameResult where
  resource : Option String := none
deriving DecidableEq, Repr

/-- JavaScript truthiness of `data?.resource`: a present, non-empty
string. -/
def jsTruthyOptStr : Option String → Bool
  | some s => !(s == "")
  | none => false

/-- The audit list query key of a resource. -/
def auditListKey (r : String) : QueryKey :=
  (((keysRoot.audit).resource r).action "list").get

/-- The `onSuccess` handler of the `rename` mutation of `useLog`,
translated from the source: when `data?.resource` is truthy, invalidate
the audit list query key of `data?.resource ?? ""`; otherwise do
nothing.  The result is the invalidated query key, if any. -/
def renameOnSuccess (data : Option RenameResult) : Option QueryKey :=
  let r := data.bind RenameResult.resource
  if jsTruthyOptStr r then some (auditListKey (r.getD "")) else none

/-! ## The update orchestrator

Modelled from the spec: the `useUpdate` implementation is not part of the
source slice (only its test file is), so the orchestrator below follows
section 4.1 of the specification: resolve the resource, merge meta, and,
depending on the mutation mode, optionally apply an optimistic cache
mutation with snapshot capture, invoke the data provider, and reconcile
the cache with the outcome (restore snapshots on failure, keep the
optimistic state on success, and support a cancelled deferred commit). -/

/-- A cached response payload: either a single record (detail scope) or a
collection of records (list and many scopes). -/
inductive Payload
  | one (record : Obj)
  | coll (records : List Obj)
deriving DecidableEq, Repr

/-- The cache store: an association from query keys to cached payloads. -/
abbrev Cache := List (QueryKey × Payload)

/-- First-occurrence lookup by query key. -/
def lookupKey {α : Type} : List (QueryKey × α) → QueryKey → Option α
  | [], _ => none
  | (k, v) :: rest, q => if k = q then some v else lookupKey rest q

/-- The three cache scopes an update mutation may touch. -/
inductive Scope
  | list
  | many
  | detail
deriving DecidableEq, Repr

/-- A per-scope entry of the optimistic update map: `skip` is the literal
`false`, `defaultMerge` is the literal `true` or an unspecified entry,
and `custom` is an application-supplied mapper function (returning
a null-equivalent value leaves the entry unmutated). -/
inductive OptimisticEntry
  | skip
  | defaultMerge
  | custom (fn : Payload → Obj → JsonVal → Option Payload)

/-- The optimistic update map, one entry per scope; every entry defaults
to the default merge. -/
structure OptimisticUpdateMap where
  list : OptimisticEntry := .defaultMerge
  many : OptimisticEntry := .defaultMerge
  detail : OptimisticEntry := .defaultMerge

/-- The entry of the map for a scope. -/
def entryFor (m : OptimisticUpdateMap) : Scope → OptimisticEntry
  | .list => m.list
  | .many => m.many
  | .detail => m.detail

/-- The mutation modes of the update orchestrator. -/
inductive MutationMode
  | pessimistic
  | optimistic
  | undoable
deriving DecidableEq, Repr

/-- An update mutation request. -/
structure UpdateRequest where
  resource : String
  id : JsonVal
  values : Obj
  mutationMode : MutationMode := .pessimistic
  dataProviderName : Option String := none
  optimisticUpdateMap : OptimisticUpdateMap := {}
  meta : Obj := []

/-- The outcome of the data-provider update call: the response data on
success, an error message on rejection. -/
inductive ProviderOutcome
  | ok (data : Obj)
  | err (msg : String)
deriving DecidableEq, Repr

/-- What happens to the undoable timer: user cancellation before it
elapses, or uneventful expiry.  Ignored by the other modes. -/
inductive UndoableSignal
  | cancel
  | elapse
deriving DecidableEq, Repr

/-- The arguments of the data-provider update call. -/
structure ProviderCall where
  resource : String
  id : JsonVal
  values : Obj
  meta : Obj
  dataProviderName : String
deriving DecidableEq, Repr

/-- A published live event. -/
structure LiveEvent where
  channel : String
  type : String
  payloadIds : Option (List JsonVal)
  metaDataProviderName : String
deriving DecidableEq, Repr

/-- The observable outcome of one settled update mutation: the cache while
the provider call is in flight, the cache after settlement, the
provider call made (if any), the meta handed to query-key construction
and invalidation, the published live event (if any), and the success
flags. -/
structure MutationOutcome where
  cacheDuring : Cache
  cacheAfter : Cache
  providerCall : Option ProviderCall
  queryKeyMeta : Obj
  published : Option LiveEvent
  invalidated : Bool
  succeeded : Bool
deriving DecidableEq, Repr

/-- Whether a key lies under a scope key: the scope key is an initial run
of its segments. -/
def keyUnder (base k : QueryKey) : Bool :=
  k.take base.length == base

/-- The scope a cache key belongs to for a given mutation: the list and
many scopes of the resource, and the detail scope of the mutated id. -/
def scopeOfKey (dp resName idSeg : String) (k : QueryKey) : Option Scope :=
  if keyUnder ["data", dp, resName, "list"] k then some .list
  else if keyUnder ["data", dp, resName, "many"] k then some .many
  else if keyUnder ["data", dp, resName, "one", idSeg] k then some .detail
  else none

/-- Collection merge of the default optimistic update: every record whose
id equals the mutated id receives the patch, all others are kept. -/
def collMerge (values : Obj) (id : JsonVal) (rs : List Obj) : List Obj :=
  rs.map (fun r => if lookupField r "id" == some id then mergeObj r values else r)

/-- The default optimistic update of a payload in a scope: shallow-merge
the patch onto the detail record, or onto every matching record of a
collection; a payload of the other shape is left as it is. -/
def defaultUpdate (values : Obj) (id : JsonVal) : Scope → Payload → Payload
  | Scope.detail, Payload.one r => Payload.one (mergeObj r values)
  | Scope.detail, Payload.coll rs => Payload.coll rs
  | Scope.list, Payload.coll rs => Payload.coll (collMerge values id rs)
  | Scope.list, Payload.one r => Payload.one r
  | Scope.many, Payload.coll rs => Payload.coll (collMerge values id rs)
  | Scope.many, Payload.one r => Payload.one r

/-- The per-entry action of the optimistic phase on a cache entry:
`none` when the key is outside every active scope (or its scope entry is
`skip`), so the entry is not visited and no snapshot is taken;
`some none` when the entry is visited but the custom mapper returns a
null-equivalent value, so a snapshot is taken and the entry is left
unmutated; `some (some p)` when the entry is visited and mutated to
`p`. -/
def updateAct (dp resName idSeg : String) (values : Obj) (id : JsonVal)
    (m : OptimisticUpdateMap) (k : QueryKey) (p : Payload) :
    Option (Option Payload) :=
  match scopeOfKey dp resName idSeg k with
  | none => none
  | some s =>
    match entryFor m s with
    | .skip => none
    | .defaultMerge => some (some (defaultUpdate values id s p))
    | .custom fn => some (fn p values id)

/-- The optimistic phase: walk the cache, snapshot every visited entry and
apply its new value, returning the mutated cache and the captured
snapshots. -/
def optimisticPhase (act : QueryKey → Payload → Option (Option Payload)) :
    Cache → Cache × List (QueryKey × Payload)
  | [] => ([], [])
  | (k, p) :: rest =>
    let r := optimisticPhase act rest
    match act k p with
    | none => ((k, p) :: r.1, r.2)
    | some none => ((k, p) :: r.1, (k, p) :: r.2)
    | some (some p2) => ((k, p2) :: r.1, (k, p) :: r.2)

/-- Restore every captured snapshot: each cache entry whose key carries a
snapshot is set back to the snapshotted value. -/
def restoreSnapshots (snaps : List (QueryKey × Payload)) : Cache → Cache
  | [] => []
  | (k, p) :: rest =>
    match lookupKey snaps k with
    | some old => (k, old) :: restoreSnapshots snaps rest
    | none => (k, p) :: restoreSnapshots snaps rest

/-- The data-provider name used by an update request: the per-call name,
else the one configured on the resolved resource, else the default. -/
def dpOf (req : UpdateRequest) (res : Resource) : String :=
  req.dataProviderName.getD (res.dataProviderName.getD "default")

/-- The merged meta of an update mutation, in increasing precedence: the
meta configured on the resolved resource, the router-derived
parameters, and the per-call meta. -/
def combinedMeta (res : Resource) (router : Obj) (req : UpdateRequest) : Obj :=
  mergeObj (mergeObj res.meta router) req.meta

/-- The optimistic-phase action of an update request against a resolved
resource. -/
def actOf (res : Resource) (req : UpdateRequest) :
    QueryKey → Payload → Option (Option Payload) :=
  updateAct (dpOf req res) res.name (segOf req.id) req.values req.id
    req.optimisticUpdateMap

/-- The data-provider call an update request makes: the resolved resource
name, the id and patch, the full merged meta (transport fields
included) and the picked data-provider name. -/
def callOf (res : Resource) (router : Obj) (req : UpdateRequest) : ProviderCall :=
  { resource := res.name
    id := req.id
    values := req.values
    meta := combinedMeta res router req
    dataProviderName := dpOf req res }

/-- The live event published on a successful update: type `updated` on the
channel of the resource, with the ids of the response data when the
response carries an id and no ids field otherwise. -/
def publishedOf (res : Resource) (req : UpdateRequest) (d : Obj) : LiveEvent :=
  { channel := "resources/" ++ res.name
    type := "updated"
    payloadIds := (lookupField d "id").map (fun v => [v])
    metaDataProviderName := dpOf req res }

/-- The orchestrator body once the resource is resolved, by mutation mode:
pessimistic calls the provider with no prior cache mutation; optimistic
first applies the optimistic phase and restores every snapshot on
failure; undoable applies the optimistic phase, never calls the
provider and restores the snapshots when cancelled before the timer
elapses, and otherwise proceeds as pessimistic on the already-applied
optimistic state. -/
def runUpdateResolved (res : Resource) (router : Obj) (req : UpdateRequest)
    (outcome : ProviderOutcome) (sig : UndoableSignal) (cache : Cache) :
    MutationOutcome :=
  let qkMeta := stripGql (combinedMeta res router req)
  match req.mutationMode with
  | .pessimistic =>
    match outcome with
    | .ok d =>
      { cacheDuring := cache, cacheAfter := cache
        providerCall := some (callOf res router req), queryKeyMeta := qkMeta
        published := some (publishedOf res req d)
        invalidated := true, succeeded := true }
    | .err _ =>
      { cacheDuring := cache, cacheAfter := cache
        providerCall := some (callOf res router req), queryKeyMeta := qkMeta
        published := none, invalidated := false, succeeded := false }
  | .optimistic =>
    let phase := optimisticPhase (actOf res req) cache
    match outcome with
    | .ok d =>
      { cacheDuring := phase.1, cacheAfter := phase.1
        providerCall := some (callOf res router req), queryKeyMeta := qkMeta
        published := some (publishedOf res req d)
        invalidated := true, succeeded := true }
    | .err _ =>
      { cacheDuring := phase.1
        cacheAfter := restoreSnapshots phase.2 phase.1
        providerCall := some (callOf res router req), queryKeyMeta := qkMeta
        published := none, invalidated := false, succeeded := false }
  | .undoable =>
    let phase := optimisticPhase (actOf res req) cache
    match sig with
    | .cancel =>
      { cacheDuring := phase.1
        cacheAfter := restoreSnapshots phase.2 phase.1
        providerCall := none, queryKeyMeta := qkMeta
        published := none, invalidated := false, succeeded := false }
    | .elapse =>
      match outcome with
      | .ok d =>
        { cacheDuring := phase.1, cacheAfter := phase.1
          providerCall := some (callOf res router req), queryKeyMeta := qkMeta
          published := some (publishedOf res req d)
          invalidated := true, succeeded := true }
      | .err _ =>
        { cacheDuring := phase.1
          cacheAfter := restoreSnapshots phase.2 phase.1
          providerCall := some (callOf res router req), queryKeyMeta := qkMeta
          published := none, invalidated := false, succeeded := false }

/-- The update orchestrator: resolve the resource (failing with a
resolution error when no definition matches) and run the mutation. -/
def runUpdate (resources : List Resource) (router : Obj) (req : UpdateRequest)
    (outcome : ProviderOutcome) (sig : UndoableSignal) (cache : Cache) :
    Except String MutationOutcome :=
  match pickResource req.resource resources with
  | none => Except.error "NotFound"
  | some res => Except.ok (runUpdateResolved res router req outcome sig cache)

/-! ## Properties of the optimistic phase and snapshot restore -/

theorem optimisticPhase_fst_keys (act : QueryKey → Payload → Option (Option Payload))
    (c : Cache) :
    (optimisticPhase act c).1.map Prod.fst = c.map Prod.fst := by
  induction c with
  | nil => rfl
  | cons hd tl ih =>
    obtain ⟨k, p⟩ := hd
    cases hact : act k p with
    | none => simp [optimisticPhase, hact, ih]
    | some v =>
      cases v with
      | none => simp [optimisticPhase, hact, ih]
      | some p2 => simp [optimisticPhase, hact, ih]

theorem lookupKey_phase_snd_of_notmem (act : QueryKey → Payload → Option (Option Payload))
    (c : Cache) (k : QueryKey) (h : k ∉ c.map Prod.fst) :
    lookupKey (optimisticPhase act c).2 k = none := by
  induction c with
  | nil => rfl
  | cons hd tl ih =>
    obtain ⟨k1, p1⟩ := hd
    simp only [List.map_cons, List.mem_cons, not_or] at h
    obtain ⟨hne, hnm⟩ := h
    have hk : ¬ k1 = k := fun e => hne e.symm
    cases hact : act k1 p1 with
    | none => simpa [optimisticPhase, hact] using ih hnm
    | some v =>
      cases v with
      | none => simp [optimisticPhase, hact, lookupKey, hk, ih hnm]
      | some p2 => simp [optimisticPhase, hact, lookupKey, hk, ih hnm]

theorem restoreSnapshots_cons_of_notmem (snaps : List (QueryKey × Payload))
    (k : QueryKey) (v : Payload) (c : Cache) (h : k ∉ c.map Prod.fst) :
    restoreSnapshots ((k, v) :: snaps) c = restoreSnapshots snaps c := by
  induction c with
  | nil => rfl
  | cons hd tl ih =>
    obtain ⟨k1, p1⟩ := hd
    simp only [List.map_cons, List.mem_cons, not_or] at h
    obtain ⟨hne, hnm⟩ := h
    cases hsn : lookupKey snaps k1 with
    | some old => simp [restoreSnapshots, lookupKey, hne, hsn, ih hnm]
    | none => simp [restoreSnapshots, lookupKey, hne, hsn, ih hnm]

/-- The snapshot round-trip: on a cache whose keys are distinct, applying
the optimistic phase and then restoring every captured snapshot yields
back the original cache, entry for entry. -/
theorem snapshot_roundTrip (act : QueryKey → Payload → Option (Option Payload))
    (c : Cache) (h : (c.map Prod.fst).Nodup) :
    restoreSnapshots (optimisticPhase act c).2 (optimisticPhase act c).1 = c := by
  induction c with
  | nil => rfl
  | cons hd tl ih =>
    obtain ⟨k, p⟩ := hd
    simp only [List.map_cons, List.nodup_cons] at h
    obtain ⟨hk, htl⟩ := h
    have hkph : k ∉ (optimisticPhase act tl).1.map Prod.fst := by
      rw [optimisticPhase_fst_keys]; exact hk
    cases hact : act k p with
    | none =>
      have hsnap : lookupKey (optimisticPhase act tl).2 k = none :=
        lookupKey_phase_snd_of_notmem act tl k hk
      simp [optimisticPhase, hact, restoreSnapshots, hsnap, ih htl]
    | some v =>
      cases v with
      | none =>
        simp [optimisticPhase, hact, restoreSnapshots, lookupKey,
          restoreSnapshots_cons_of_notmem _ _ _ _ hkph, ih htl]
      | some p2 =>
        simp [optimisticPhase, hact, restoreSnapshots, lookupKey,
          restoreSnapshots_cons_of_notmem _ _ _ _ hkph, ih htl]

theorem lookupKey_phase_fst_of_act_none (act : QueryKey → Payload → Option (Option Payload))
    (c : Cache) (k : QueryKey) (h : ∀ p, act k p = none) :
    lookupKey (optimisticPhase act c).1 k = lookupKey c k := by
  induction c with
  | nil => rfl
  | cons hd tl ih =>
    obtain ⟨k1, p1⟩ := hd
    by_cases hk : k1 = k
    · subst hk
      simp [optimisticPhase, h p1, lookupKey]
    · cases hact : act k1 p1 with
      | none => simp [optimisticPhase, hact, lookupKey, hk, ih]
      | some v =>
        cases v with
        | none => simp [optimisticPhase, hact, lookupKey, hk, ih]
        | some p2 => simp [optimisticPhase, hact, lookupKey, hk, ih]

theorem lookupKey_phase_snd_of_act_none (act : QueryKey → Payload → Option (Option Payload))
    (c : Cache) (k : QueryKey) (h : ∀ p, act k p = none) :
    lookupKey (optimisticPhase act c).2 k = none := by
  induction c with
  | nil => rfl
  | cons hd tl ih =>
    obtain ⟨k1, p1⟩ := hd
    by_cases hk : k1 = k
    · subst hk
      simp [optimisticPhase, h p1, ih]
    · cases hact : act k1 p1 with
      | none => simp [optimisticPhase, hact, ih]
      | some v =>
        cases v with
        | none => simp [optimisticPhase, hact, lookupKey, hk, ih]
        | some p2 => simp [optimisticPhase, hact, lookupKey, hk, ih]

theorem lookupKey_restore_of_none (snaps : List (QueryKey × Payload))
    (c : Cache) (k : QueryKey) (h : lookupKey snaps k = none) :
    lookupKey (restoreSnapshots snaps c) k = lookupKey c k := by
  induction c with
  | nil => rfl
  | cons hd tl ih =>
    obtain ⟨k1, p1⟩ := hd
    by_cases hk : k1 = k
    · subst hk
      simp [restoreSnapshots, h, lookupKey]
    · cases hsn : lookupKey snaps k1 with
      | some old => simp [restoreSnapshots, hsn, lookupKey, hk, ih]
      | none => simp [restoreSnapshots, hsn, lookupKey, hk, ih]

/-! ## Field lemmas of the resolved orchestrator -/

theorem runUpdate_eq_ok (resources : List Resource) (router : Obj)
    (req : UpdateRequest) (outcome : ProviderOutcome) (sig : UndoableSignal)
    (cache : Cache) (res : Resource)
    (hres : pickResource req.resource resources = some res) :
    runUpdate resources router req outcome sig cache =
      Except.ok (runUpdateResolved res router req outcome sig cache) := by
  unfold runUpdate
  rw [hres]

theorem runUpdateResolved_queryKeyMeta (res : Resource) (router : Obj)
    (req : UpdateRequest) (outcome : ProviderOutcome) (sig : UndoableSignal)
    (cache : Cache) :
    (runUpdateResolved res router req outcome sig cache).queryKeyMeta =
      stripGql (combinedMeta res router req) := by
  unfold runUpdateResolved
  cases req.mutationMode <;> cases outcome <;> cases sig <;> rfl

theorem runUpdateResolved_providerCall_elapse (res : Resource) (router : Obj)
    (req : UpdateRequest) (outcome : ProviderOutcome) (cache : Cache) :
    (runUpdateResolved res router req outcome UndoableSignal.elapse cache).providerCall =
      some (callOf res router req) := by
  unfold runUpdateResolved
  cases req.mutationMode <;> cases outcome <;> rfl

theorem runUpdateResolved_published_ok_elapse (res : Resource) (router : Obj)
    (req : UpdateRequest) (d : Obj) (cache : Cache) :
    (runUpdateResolved res router req (ProviderOutcome.ok d) UndoableSignal.elapse
        cache).published = some (publishedOf res req d) := by
  unfold runUpdateResolved
  cases req.mutationMode <;> rfl

theorem runUpdateResolved_cacheAfter_optimistic_err (res : Resource) (router : Obj)
    (req : UpdateRequest) (e : String) (sig : UndoableSignal) (cache : Cache)
    (hmode : req.mutationMode = MutationMode.optimistic) :
    (runUpdateResolved res router req (ProviderOutcome.err e) sig cache).cacheAfter =
      restoreSnapshots (optimisticPhase (actOf res req) cache).2
        (optimisticPhase (actOf res req) cache).1 := by
  unfold runUpdateResolved
  rw [hmode]

theorem runUpdateResolved_undoable_cancel (res : Resource) (router : Obj)
    (req : UpdateRequest) (outcome : ProviderOutcome) (cache : Cache)
    (hmode : req.mutationMode = MutationMode.undoable) :
    (runUpdateResolved res router req outcome UndoableSignal.cancel cache).providerCall =
        none ∧
      (runUpdateResolved res router req outcome UndoableSignal.cancel cache).cacheAfter =
        restoreSnapshots (optimisticPhase (actOf res req) cache).2
          (optimisticPhase (actOf res req) cache).1 := by
  unfold runUpdateResolved
  rw [hmode]
  exact ⟨rfl, rfl⟩

theorem runUpdateResolved_cacheDuring_optimistic (res : Resource) (router : Obj)
    (req : UpdateRequest) (outcome : ProviderOutcome) (sig : UndoableSignal)
    (cache : Cache) (hmode : req.mutationMode = MutationMode.optimistic) :
    (runUpdateResolved res router req outcome sig cache).cacheDuring =
      (optimisticPhase (actOf res req) cache).1 := by
  unfold runUpdateResolved
  rw [hmode]
  cases outcome <;> rfl

theorem runUpdateResolved_cacheAfter_optimistic_ok (res : Resource) (router : Obj)
    (req : UpdateRequest) (d : Obj) (sig : UndoableSignal) (cache : Cache)
    (hmode : req.mutationMode = MutationMode.optimistic) :
    (runUpdateResolved res router req (ProviderOutcome.ok d) sig cache).cacheAfter =
      (optimisticPhase (actOf res req) cache).1 := by
  unfold runUpdateResolved
  rw [hmode]

/-! ## Claim theorems -/

/-- Claim C1: for every optimistic-mode update mutation whose data-provider
call is rejected, the cache state after the mutation settles equals the
cache state immediately before the mutation began — every captured
snapshot is restored verbatim, across all scopes at once. -/
theorem update_optimistic_failure_restores_cache (resources : List Resource)
    (router : Obj) (req : UpdateRequest) (e : String) (sig : UndoableSignal)
    (cache : Cache) (res : Resource)
    (hres : pickResource req.resource resources = some res)
    (hmode : req.mutationMode = MutationMode.optimistic)
    (hnodup : (cache.map Prod.fst).Nodup) :
    (runUpdate resources router req (ProviderOutcome.err e) sig cache).toOption.map
      MutationOutcome.cacheAfter = some cache := by
  rw [runUpdate_eq_ok resources router req _ sig cache res hres]
  simp [Except.toOption,
    runUpdateResolved_cacheAfter_optimistic_err res router req e sig cache hmode,
    snapshot_roundTrip (actOf res req) cache hnodup]

/-- Claim C2: for every undoable-mode update mutation cancelled before its
timer elapses, the data provider is never invoked and every
optimistically mutated cache entry is restored to its pre-mutation
value. -/
theorem update_undoable_cancel_never_calls_provider (resources : List Resource)
    (router : Obj) (req : UpdateRequest) (outcome : ProviderOutcome)
    (cache : Cache) (res : Resource)
    (hres : pickResource req.resource resources = some res)
    (hmode : req.mutationMode = MutationMode.undoable)
    (hnodup : (cache.map Prod.fst).Nodup) :
    (runUpdate resources router req outcome UndoableSignal.cancel cache).toOption.map
      (fun o => (o.providerCall, o.cacheAfter)) = some (none, cache) := by
  rw [runUpdate_eq_ok resources router req outcome _ cache res hres]
  obtain ⟨hcall, hafter⟩ :=
    runUpdateResolved_undoable_cancel res router req outcome cache hmode
  simp [Except.toOption, hcall, hafter,
    snapshot_roundTrip (actOf res req) cache hnodup]

/-- Claim C3: the meta handed to query-key construction and invalidation is
the merge of resource meta, router parameters and per-call meta with
the transport-specific fields gqlQuery and gqlMutation removed, while
the meta of the data-provider call is the full merge and still carries
those fields. -/
theorem update_meta_gql_split (resources : List Resource) (router : Obj)
    (req : UpdateRequest) (outcome : ProviderOutcome) (sig : UndoableSignal)
    (cache : Cache) (res : Resource) (k : String) (v : JsonVal)
    (hres : pickResource req.resource resources = some res)
    (hk1 : k ≠ "gqlQuery") (hk2 : k ≠ "gqlMutation")
    (hv : lookupField req.meta "gqlQuery" = some v) :
    ((runUpdate resources router req outcome sig cache).toOption.map
      (fun o => (lookupField o.queryKeyMeta "gqlQuery",
                 lookupField o.queryKeyMeta "gqlMutation",
                 lookupField o.queryKeyMeta k)) =
      some (none, none, lookupField (combinedMeta res router req) k)) ∧
    ((runUpdate resources router req outcome UndoableSignal.elapse cache).toOption.bind
      (fun o => o.providerCall.map ProviderCall.meta) =
      some (combinedMeta res router req)) ∧
    ((runUpdate resources router req outcome UndoableSignal.elapse cache).toOption.bind
      (fun o => o.providerCall.map (fun c => lookupField c.meta "gqlQuery")) =
      some (some v)) := by
  have hgq : isGqlField "gqlQuery" = true := by decide
  have hgm : isGqlField "gqlMutation" = true := by decide
  have hk : isGqlField k = false := by
    simp [isGqlField, hk1, hk2]
  refine ⟨?_, ?_, ?_⟩
  · rw [runUpdate_eq_ok resources router req outcome sig cache res hres]
    simp [Except.toOption, runUpdateResolved_queryKeyMeta,
      lookupField_stripGql_of_gql _ _ hgq, lookupField_stripGql_of_gql _ _ hgm,
      lookupField_stripGql_of_not_gql _ _ hk]
  · rw [runUpdate_eq_ok resources router req outcome _ cache res hres]
    simp [Except.toOption, runUpdateResolved_providerCall_elapse, callOf]
  · rw [runUpdate_eq_ok resources router req outcome _ cache res hres]
    simp [Except.toOption, runUpdateResolved_providerCall_elapse, callOf,
      combinedMeta, lookupField_mergeObj, hv]

/-- Claim C4: when the resource argument matches the identifier of a
resource definition, resolution selects the first exact identifier
match, the data-provider call uses the name, merged meta and
data-provider name of that definition only, and when no identifier
matches, resolution falls back to the first name match. -/
theorem update_identifier_resolution (resources : List Resource) (router : Obj)
    (req : UpdateRequest) (outcome : ProviderOutcome) (cache : Cache)
    (res : Resource)
    (hfind : resources.find? (fun r => r.identifier == some req.resource) =
      some res) :
    pickResource req.resource resources = some res ∧
    ((runUpdate resources router req outcome UndoableSignal.elapse cache).toOption.bind
      MutationOutcome.providerCall =
      some { resource := res.name, id := req.id, values := req.values,
             meta := combinedMeta res router req,
             dataProviderName :=
               req.dataProviderName.getD (res.dataProviderName.getD "default") }) ∧
    (∀ rs2 : List Resource,
      rs2.find? (fun r => r.identifier == some req.resource) = none →
      pickResource req.resource rs2 = rs2.find? (fun r => r.name == req.resource)) := by
  have hpick : pickResource req.resource resources = some res := by
    unfold pickResource
    rw [hfind]
  refine ⟨hpick, ?_, ?_⟩
  · rw [runUpdate_eq_ok resources router req outcome _ cache res hpick]
    simp [Except.toOption, runUpdateResolved_providerCall_elapse, callOf, dpOf]
  · intro rs2 h2
    unfold pickResource
    rw [h2]

/-- Claim C7: for an optimistic-mode update mutation whose optimistic
update map entry for a scope is false, every cache entry of that scope
is unchanged throughout the mutation lifecycle — while the provider
call is in flight and after settlement, on success and on failure
alike, whatever happens to the other scopes. -/
theorem update_skip_scope_untouched (resources : List Resource) (router : Obj)
    (req : UpdateRequest) (outcome : ProviderOutcome) (sig : UndoableSignal)
    (cache : Cache) (res : Resource) (s : Scope) (k : QueryKey)
    (hres : pickResource req.resource resources = some res)
    (hmode : req.mutationMode = MutationMode.optimistic)
    (hskip : entryFor req.optimisticUpdateMap s = OptimisticEntry.skip)
    (hscope : scopeOfKey (dpOf req res) res.name (segOf req.id) k = some s) :
    (runUpdate resources router req outcome sig cache).toOption.map
      (fun o => (lookupKey o.cacheDuring k, lookupKey o.cacheAfter k)) =
      some (lookupKey cache k, lookupKey cache k) := by
  have hact : ∀ p, actOf res req k p = none := by
    intro p
    simp [actOf, updateAct, hscope, hskip]
  have hfst : lookupKey (optimisticPhase (actOf res req) cache).1 k =
      lookupKey cache k :=
    lookupKey_phase_fst_of_act_none (actOf res req) cache k hact
  have hsnd : lookupKey (optimisticPhase (actOf res req) cache).2 k = none :=
    lookupKey_phase_snd_of_act_none (actOf res req) cache k hact
  rw [runUpdate_eq_ok resources router req outcome sig cache res hres]
  have hdur := runUpdateResolved_cacheDuring_optimistic res router req outcome
    sig cache hmode
  cases outcome with
  | ok d =>
    have hafter := runUpdateResolved_cacheAfter_optimistic_ok res router req d
      sig cache hmode
    simp [Except.toOption, hdur, hafter, hfst]
  | err e =>
    have hafter := runUpdateResolved_cacheAfter_optimistic_err res router req e
      sig cache hmode
    simp [Except.toOption, hdur, hafter, hfst,
      lookupKey_restore_of_none _ _ _ hsnd]

/-- Claim C8: every update mutation that succeeds publishes a live event of
type updated on the channel resources/name of the resolved resource;
the payload carries the returned id as its ids when the response data
has an id field, and carries no ids field when the response data has
none. -/
theorem update_success_publishes_updated (resources : List Resource)
    (router : Obj) (req : UpdateRequest) (d : Obj) (cache : Cache)
    (res : Resource)
    (hres : pickResource req.resource resources = some res) :
    (runUpdate resources router req (ProviderOutcome.ok d) UndoableSignal.elapse
        cache).toOption.map MutationOutcome.published =
      some (some { channel := "resources/" ++ res.name, type := "updated",
                   payloadIds := (lookupField d "id").map (fun v => [v]),
                   metaDataProviderName := dpOf req res }) := by
  rw [runUpdate_eq_ok resources router req _ _ cache res hres]
  simp [Except.toOption, runUpdateResolved_published_ok_elapse, publishedOf]

/-- Claim C6: an invalidate call whose invalidates argument is the literal
false is a no-op: no query key is computed and no invalidation is
issued for any scope. -/
theorem invalidate_off_is_noop (resources : List Resource) (r : Option String)
    (i : Option JsonVal) (d : Option String) :
    useInvalidateCalls resources
      { resource := r, id := i, dataProviderName := d,
        invalidates := InvalidatesArg.off } = [] := rfl

/-- Claim C5, counterexample: an invalidate call with scope detail and no
id does not fail and is not rejected — it issues a detail invalidation
whose query key carries the empty string in the id position. -/
theorem invalidate_detail_without_id_counterexample :
    useInvalidateCalls []
      { resource := some "posts", id := none, dataProviderName := none,
        invalidates := InvalidatesArg.scopes [InvalidateScope.detail] } =
      [["data", "default", "posts", "one", ""]] := by decide

/-- Claim C5, amended: when the invalidates array contains the scope
detail, the detail query key is built with the supplied id; when no id
is supplied, or the id is falsy, the id position holds the empty string
instead, and the call proceeds without failing. -/
theorem invalidate_detail_key_uses_id_or_empty (resources : List Resource)
    (p : InvalidateProps) (l : List InvalidateScope)
    (hinv : p.invalidates = InvalidatesArg.scopes l)
    (hmem : InvalidateScope.detail ∈ l) :
    ((((keysRoot.data
        (pickDataProvider p.resource p.dataProviderName resources)).resource
        (p.resource.getD "")).action "one").id (idOrEmpty p.id)).get ∈
      useInvalidateCalls resources p := by
  unfold useInvalidateCalls
  rw [hinv]
  simp only [List.mem_filterMap]
  exact ⟨InvalidateScope.detail, hmem, rfl⟩

/-- Claim C9: a log call whose resolved resource has audit permissions
configured that do not contain the requested action never invokes the
audit-log create function and resolves successfully with no value. -/
theorem log_denied_action_skips_create (resources : List Resource)
    (hasCreate : Bool) (identity : Option Obj) (params : LogParams)
    (ps : List String)
    (hperms : pickNotDeprecated3
        ((pickResource params.resource resources).bind Resource.metaAudit)
        ((pickResource params.resource resources).bind Resource.optionsAudit)
        ((pickResource params.resource resources).bind
          Resource.optionsAuditLogPermissions) = some ps)
    (hdenied : hasPermission ps params.action = false) :
    logMutationFn resources hasCreate identity params = none := by
  simp [logMutationFn, hperms, hdenied]

/-- Claim C10, counterexample: a rename result object that does contain a
resource field, holding the empty string, triggers no invalidation —
so invalidation is not equivalent to the mere presence of the field. -/
theorem rename_empty_resource_counterexample :
    (RenameResult.mk (some "")).resource = some "" ∧
    renameOnSuccess (some (RenameResult.mk (some ""))) = none := ⟨rfl, rfl⟩

/-- Claim C10, amended: the audit list query cache of the resource named in
the rename result is invalidated exactly when the result contains a
resource field whose value is a non-empty string; an undefined result,
a missing field, or an empty-string field triggers no invalidation. -/
theorem rename_invalidates_iff_truthy_resource (d : Option RenameResult) :
    ((renameOnSuccess d).isSome = true ↔
      ∃ s, d = some ⟨some s⟩ ∧ s ≠ "") ∧
    (∀ s, s ≠ "" → renameOnSuccess (some ⟨some s⟩) = some (auditListKey s)) := by
  constructor
  · constructor
    · intro h
      match d with
      | none => simp [renameOnSuccess, jsTruthyOptStr] at h
      | some ⟨none⟩ => simp [renameOnSuccess, jsTruthyOptStr, Option.bind] at h
      | some ⟨some s⟩ =>
        refine ⟨s, rfl, ?_⟩
        intro hs
        subst hs
        simp [renameOnSuccess, jsTruthyOptStr, Option.bind] at h
    · rintro ⟨s, rfl, hs⟩
      simp [renameOnSuccess, jsTruthyOptStr, Option.bind, hs]
  · intro s hs
    simp [renameOnSuccess, jsTruthyOptStr, Option.bind, auditListKey, hs]

/-! ## Witnesses: the claim theorems applied at concrete inputs -/

/-- Witness for claim C1: a concrete optimistic mutation against a cache
with a detail entry and a list entry, rejected by the provider, leaves
the cache exactly as it was. -/
theorem update_optimistic_failure_restores_cache_witness :
    pickResource "posts" [{ name := "posts" }] = some { name := "posts" } ∧
    UpdateRequest.mutationMode
      { resource := "posts", id := JsonVal.str "1",
        values := [("title", JsonVal.str "B")],
        mutationMode := MutationMode.optimistic } = MutationMode.optimistic ∧
    (List.map Prod.fst
      ([(["data", "default", "posts", "one", "1"],
          Payload.one [("id", JsonVal.str "1"), ("title", JsonVal.str "A")]),
        (["data", "default", "posts", "list"],
          Payload.coll [[("id", JsonVal.str "1"), ("title", JsonVal.str "A")]])] :
        Cache)).Nodup ∧
    (runUpdate [{ name := "posts" }] []
      { resource := "posts", id := JsonVal.str "1",
        values := [("title", JsonVal.str "B")],
        mutationMode := MutationMode.optimistic }
      (ProviderOutcome.err "boom") UndoableSignal.elapse
      [(["data", "default", "posts", "one", "1"],
          Payload.one [("id", JsonVal.str "1"), ("title", JsonVal.str "A")]),
        (["data", "default", "posts", "list"],
          Payload.coll [[("id", JsonVal.str "1"), ("title", JsonVal.str "A")]])]).toOption.map
      MutationOutcome.cacheAfter =
      some [(["data", "default", "posts", "one", "1"],
          Payload.one [("id", JsonVal.str "1"), ("title", JsonVal.str "A")]),
        (["data", "default", "posts", "list"],
          Payload.coll [[("id", JsonVal.str "1"), ("title", JsonVal.str "A")]])] := by
  refine ⟨by decide, rfl, by decide, ?_⟩
  exact update_optimistic_failure_restores_cache [{ name := "posts" }] []
    { resource := "posts", id := JsonVal.str "1",
      values := [("title", JsonVal.str "B")],
      mutationMode := MutationMode.optimistic }
    "boom" UndoableSignal.elapse
    [(["data", "default", "posts", "one", "1"],
        Payload.one [("id", JsonVal.str "1"), ("title", JsonVal.str "A")]),
      (["data", "default", "posts", "list"],
        Payload.coll [[("id", JsonVal.str "1"), ("title", JsonVal.str "A")]])]
    { name := "posts" } (by decide) rfl (by decide)

/-- Witness for claim C2: a concrete undoable mutation cancelled before the
timer elapses makes no provider call and leaves the cache as it was. -/
theorem update_undoable_cancel_never_calls_provider_witness :
    pickResource "posts" [{ name := "posts" }] = some { name := "posts" } ∧
    UpdateRequest.mutationMode
      { resource := "posts", id := JsonVal.str "1",
        values := [("title", JsonVal.str "B")],
        mutationMode := MutationMode.undoable } = MutationMode.undoable ∧
    (List.map Prod.fst
      ([(["data", "default", "posts", "one", "1"],
          Payload.one [("id", JsonVal.str "1"), ("title", JsonVal.str "A")])] :
        Cache)).Nodup ∧
    (runUpdate [{ name := "posts" }] []
      { resource := "posts", id := JsonVal.str "1",
        values := [("title", JsonVal.str "B")],
        mutationMode := MutationMode.undoable }
      (ProviderOutcome.ok []) UndoableSignal.cancel
      [(["data", "default", "posts", "one", "1"],
          Payload.one [("id", JsonVal.str "1"), ("title", JsonVal.str "A")])]).toOption.map
      (fun o => (o.providerCall, o.cacheAfter)) =
      some (none,
        [(["data", "default", "posts", "one", "1"],
          Payload.one [("id", JsonVal.str "1"), ("title", JsonVal.str "A")])]) := by
  refine ⟨by decide, rfl, by decide, ?_⟩
  exact update_undoable_cancel_never_calls_provider [{ name := "posts" }] []
    { resource := "posts", id := JsonVal.str "1",
      values := [("title", JsonVal.str "B")],
      mutationMode := MutationMode.undoable }
    (ProviderOutcome.ok [])
    [(["data", "default", "posts", "one", "1"],
        Payload.one [("id", JsonVal.str "1"), ("title", JsonVal.str "A")])]
    { name := "posts" } (by decide) rfl (by decide)

/-- Witness for claim C3: with resource meta, a router parameter and a
per-call meta carrying gqlQuery and gqlMutation, the meta used for
query keys keeps foo and drops the transport fields, while the
data-provider call still carries gqlQuery. -/
theorem update_meta_gql_split_witness :
    lookupField [("foo", JsonVal.str "bar"), ("gqlQuery", JsonVal.str "q"),
      ("gqlMutation", JsonVal.str "m")] "gqlQuery" = some (JsonVal.str "q") ∧
    ((runUpdate [{ name := "posts", meta := [("dip", JsonVal.str "dop")] }]
        [("baz", JsonVal.str "qux")]
        { resource := "posts", id := JsonVal.str "1", values := [],
          meta := [("foo", JsonVal.str "bar"), ("gqlQuery", JsonVal.str "q"),
            ("gqlMutation", JsonVal.str "m")] }
        (ProviderOutcome.ok []) UndoableSignal.elapse []).toOption.map
      (fun o => (lookupField o.queryKeyMeta "gqlQuery",
                 lookupField o.queryKeyMeta "gqlMutation",
                 lookupField o.queryKeyMeta "foo")) =
      some (none, none, some (JsonVal.str "bar"))) ∧
    ((runUpdate [{ name := "posts", meta := [("dip", JsonVal.str "dop")] }]
        [("baz", JsonVal.str "qux")]
        { resource := "posts", id := JsonVal.str "1", values := [],
          meta := [("foo", JsonVal.str "bar"), ("gqlQuery", JsonVal.str "q"),
            ("gqlMutation", JsonVal.str "m")] }
        (ProviderOutcome.ok []) UndoableSignal.elapse []).toOption.bind
      (fun o => o.providerCall.map (fun c => lookupField c.meta "gqlQuery")) =
      some (some (JsonVal.str "q"))) := by
  refine ⟨by decide, ?_, ?_⟩
  · exact ((update_meta_gql_split
      [{ name := "posts", meta := [("dip", JsonVal.str "dop")] }]
      [("baz", JsonVal.str "qux")]
      { resource := "posts", id := JsonVal.str "1", values := [],
        meta := [("foo", JsonVal.str "bar"), ("gqlQuery", JsonVal.str "q"),
          ("gqlMutation", JsonVal.str "m")] }
      (ProviderOutcome.ok []) UndoableSignal.elapse []
      { name := "posts", meta := [("dip", JsonVal.str "dop")] }
      "foo" (JsonVal.str "q")
      (by decide) (by decide) (by decide) (by decide)).1).trans (by decide)
  · exact ((update_meta_gql_split
      [{ name := "posts", meta := [("dip", JsonVal.str "dop")] }]
      [("baz", JsonVal.str "qux")]
      { resource := "posts", id := JsonVal.str "1", values := [],
        meta := [("foo", JsonVal.str "bar"), ("gqlQuery", JsonVal.str "q"),
          ("gqlMutation", JsonVal.str "m")] }
      (ProviderOutcome.ok []) UndoableSignal.elapse []
      { name := "posts", meta := [("dip", JsonVal.str "dop")] }
      "foo" (JsonVal.str "q")
      (by decide) (by decide) (by decide) (by decide)).2.2).trans (by decide)

/-- Witness for claim C4: two resource definitions sharing the name posts,
one carrying the identifier featured-posts with its own meta and data
provider; mutating featured-posts resolves the identifier match and
calls the provider with that meta and provider name. -/
theorem update_identifier_resolution_witness :
    List.find? (fun (r : Resource) => r.identifier == some "featured-posts")
      [{ name := "posts" },
       { name := "posts", identifier := some "featured-posts",
         meta := [("bar", JsonVal.str "baz")],
         dataProviderName := some "foo" }] =
      some { name := "posts", identifier := some "featured-posts",
             meta := [("bar", JsonVal.str "baz")],
             dataProviderName := some "foo" } ∧
    pickResource "featured-posts"
      [{ name := "posts" },
       { name := "posts", identifier := some "featured-posts",
         meta := [("bar", JsonVal.str "baz")],
         dataProviderName := some "foo" }] =
      some { name := "posts", identifier := some "featured-posts",
             meta := [("bar", JsonVal.str "baz")],
             dataProviderName := some "foo" } ∧
    (runUpdate
      [{ name := "posts" },
       { name := "posts", identifier := some "featured-posts",
         meta := [("bar", JsonVal.str "baz")],
         dataProviderName := some "foo" }] []
      { resource := "featured-posts", id := JsonVal.str "1",
        values := [("title", JsonVal.str "x")] }
      (ProviderOutcome.ok []) UndoableSignal.elapse []).toOption.bind
      MutationOutcome.providerCall =
      some { resource := "posts", id := JsonVal.str "1",
             values := [("title", JsonVal.str "x")],
             meta := [("bar", JsonVal.str "baz")],
             dataProviderName := "foo" } := by
  refine ⟨by decide, ?_, ?_⟩
  · exact (update_identifier_resolution
      [{ name := "posts" },
       { name := "posts", identifier := some "featured-posts",
         meta := [("bar", JsonVal.str "baz")],
         dataProviderName := some "foo" }] []
      { resource := "featured-posts", id := JsonVal.str "1",
        values := [("title", JsonVal.str "x")] }
      (ProviderOutcome.ok []) []
      { name := "posts", identifier := some "featured-posts",
        meta := [("bar", JsonVal.str "baz")],
        dataProviderName := some "foo" } (by decide)).1
  · exact ((update_identifier_resolution
      [{ name := "posts" },
       { name := "posts", identifier := some "featured-posts",
         meta := [("bar", JsonVal.str "baz")],
         dataProviderName := some "foo" }] []
      { resource := "featured-posts", id := JsonVal.str "1",
        values := [("title", JsonVal.str "x")] }
      (ProviderOutcome.ok []) []
      { name := "posts", identifier := some "featured-posts",
        meta := [("bar", JsonVal.str "baz")],
        dataProviderName := some "foo" } (by decide)).2.1).trans (by decide)

/-- Witness for claim C7: with the detail entry of the optimistic update
map set to false, a failing optimistic mutation leaves the detail cache
entry untouched while in flight and after settlement, though the list
entry is mutated meanwhile. -/
theorem update_skip_scope_untouched_witness :
    pickResource "posts" [{ name := "posts" }] = some { name := "posts" } ∧
    UpdateRequest.mutationMode
      { resource := "posts", id := JsonVal.str "1",
        values := [("title", JsonVal.str "B")],
        mutationMode := MutationMode.optimistic,
        optimisticUpdateMap := { detail := OptimisticEntry.skip } } =
      MutationMode.optimistic ∧
    entryFor { detail := OptimisticEntry.skip } Scope.detail =
      OptimisticEntry.skip ∧
    scopeOfKey "default" "posts" "1" ["data", "default", "posts", "one", "1"] =
      some Scope.detail ∧
    (runUpdate [{ name := "posts" }] []
      { resource := "posts", id := JsonVal.str "1",
        values := [("title", JsonVal.str "B")],
        mutationMode := MutationMode.optimistic,
        optimisticUpdateMap := { detail := OptimisticEntry.skip } }
      (ProviderOutcome.err "boom") UndoableSignal.elapse
      [(["data", "default", "posts", "one", "1"],
          Payload.one [("id", JsonVal.str "1"), ("title", JsonVal.str "A")]),
        (["data", "default", "posts", "list"],
          Payload.coll [[("id", JsonVal.str "1"), ("title", JsonVal.str "A")]])]).toOption.map
      (fun o => (lookupKey o.cacheDuring ["data", "default", "posts", "one", "1"],
                 lookupKey o.cacheAfter ["data", "default", "posts", "one", "1"])) =
      some (some (Payload.one [("id", JsonVal.str "1"), ("title", JsonVal.str "A")]),
            some (Payload.one [("id", JsonVal.str "1"), ("title", JsonVal.str "A")])) := by
  refine ⟨by decide, rfl, rfl, by decide, ?_⟩
  exact (update_skip_scope_untouched [{ name := "posts" }] []
    { resource := "posts", id := JsonVal.str "1",
      values := [("title", JsonVal.str "B")],
      mutationMode := MutationMode.optimistic,
      optimisticUpdateMap := { detail := OptimisticEntry.skip } }
    (ProviderOutcome.err "boom") UndoableSignal.elapse
    [(["data", "default", "posts", "one", "1"],
        Payload.one [("id", JsonVal.str "1"), ("title", JsonVal.str "A")]),
      (["data", "default", "posts", "list"],
        Payload.coll [[("id", JsonVal.str "1"), ("title", JsonVal.str "A")]])]
    { name := "posts" } Scope.detail ["data", "default", "posts", "one", "1"]
    (by decide) rfl rfl (by decide)).trans (by decide)

/-- Witness for claim C8: a successful update whose response data carries
an id publishes the updated event with that id, and one whose response
data has no id publishes the event without an ids field. -/
theorem update_success_publishes_updated_witness :
    pickResource "posts" [{ name := "posts" }] = some { name := "posts" } ∧
    (runUpdate [{ name := "posts" }] []
      { resource := "posts", id := JsonVal.str "1",
        values := [("title", JsonVal.str "t")] }
      (ProviderOutcome.ok [("id", JsonVal.str "1")]) UndoableSignal.elapse
      []).toOption.map MutationOutcome.published =
      some (some { channel := "resources/posts", type := "updated",
                   payloadIds := some [JsonVal.str "1"],
                   metaDataProviderName := "default" }) ∧
    (runUpdate [{ name := "posts" }] []
      { resource := "posts", id := JsonVal.str "1",
        values := [("title", JsonVal.str "t")] }
      (ProviderOutcome.ok [("title", JsonVal.str "t")]) UndoableSignal.elapse
      []).toOption.map MutationOutcome.published =
      some (some { channel := "resources/posts", type := "updated",
                   payloadIds := none,
                   metaDataProviderName := "default" }) := by
  refine ⟨by decide, ?_, ?_⟩
  · exact (update_success_publishes_updated [{ name := "posts" }] []
      { resource := "posts", id := JsonVal.str "1",
        values := [("title", JsonVal.str "t")] }
      [("id", JsonVal.str "1")] [] { name := "posts" } (by decide)).trans
      (by decide)
  · exact (update_success_publishes_updated [{ name := "posts" }] []
      { resource := "posts", id := JsonVal.str "1",
        values := [("title", JsonVal.str "t")] }
      [("title", JsonVal.str "t")] [] { name := "posts" } (by decide)).trans
      (by decide)

/-- Witness for the amended claim C5: an invalidates array holding list and
detail, with no id supplied, issues a detail invalidation keyed with
the empty string in the id position. -/
theorem invalidate_detail_key_uses_id_or_empty_witness :
    InvalidateProps.invalidates
      { resource := some "posts", id := none, dataProviderName := none,
        invalidates := InvalidatesArg.scopes
          [InvalidateScope.list, InvalidateScope.detail] } =
      InvalidatesArg.scopes [InvalidateScope.list, InvalidateScope.detail] ∧
    InvalidateScope.detail ∈ [InvalidateScope.list, InvalidateScope.detail] ∧
    ["data", "default", "posts", "one", ""] ∈
      useInvalidateCalls []
        { resource := some "posts", id := none, dataProviderName := none,
          invalidates := InvalidatesArg.scopes
            [InvalidateScope.list, InvalidateScope.detail] } := by
  refine ⟨rfl, by decide, ?_⟩
  exact invalidate_detail_key_uses_id_or_empty []
    { resource := some "posts", id := none, dataProviderName := none,
      invalidates := InvalidatesArg.scopes
        [InvalidateScope.list, InvalidateScope.detail] }
    [InvalidateScope.list, InvalidateScope.detail] rfl (by decide)

/-- Witness for claim C9: a resource with audit permissions create and
update, asked to log a delete action, never reaches the audit-log
create function and resolves with no value. -/
theorem log_denied_action_skips_create_witness :
    pickNotDeprecated3
      ((pickResource "posts"
        [{ name := "posts", metaAudit := some ["create", "update"] }]).bind
          Resource.metaAudit)
      ((pickResource "posts"
        [{ name := "posts", metaAudit := some ["create", "update"] }]).bind
          Resource.optionsAudit)
      ((pickResource "posts"
        [{ name := "posts", metaAudit := some ["create", "update"] }]).bind
          Resource.optionsAuditLogPermissions) = some ["create", "update"] ∧
    hasPermission ["create", "update"] "delete" = false ∧
    logMutationFn [{ name := "posts", metaAudit := some ["create", "update"] }]
      true none { resource := "posts", action := "delete" } = none := by
  refine ⟨by decide, by decide, ?_⟩
  exact log_denied_action_skips_create
    [{ name := "posts", metaAudit := some ["create", "update"] }]
    true none { resource := "posts", action := "delete" }
    ["create", "update"] (by decide) (by decide)

end Refine
